import Mathlib

/-!
Verification of the hybrid property-search engine
(`src/backend/MatchEngine.py`, `src/backend/main.py`).

The model is a shallow embedding of the Python code:

* pandas `DataFrame` rows become a Lean structure `Row`; the raw CSV rows
  (before `load_source`'s cleaning) become `RawRow`, in which an `Option`
  field is `none` exactly when pandas parsed the CSV cell as `NaN`
  (`pd.read_csv` turns an empty or missing cell into `NaN`, and
  `pd.to_numeric(errors := coerce)` turns an unparseable cell into `NaN`);
* floating-point numbers are modelled exactly: prices and hard scores as
  `ℚ`, embedding coordinates and similarity scores as `ℝ`;
* the `SentenceTransformer` model is an opaque collaborator: a function
  `String → List ℝ` carried by the engine state;
* a Python function that can raise becomes a function into `Except`;
  `PyError.keyError` models the `KeyError` raised by `prefs[k]` on a
  missing dictionary key.
-/

namespace MatchEngine

/-- A cleaned corpus row, as held in `self.data` after `load_source`:
columns `Price` (numeric, `NaN` rows dropped), `Bedrooms`
(`to_numeric(...).fillna(0).astype(int)`), `Bathrooms` (passthrough, may
be `NaN`), `City`, `Description` (`fillna("No description available")`). -/
structure Row where
  Price : ℚ
  Bedrooms : ℤ
  Bathrooms : Option ℚ
  City : String
  Description : String
deriving DecidableEq

/-- A raw CSV row as produced by `pd.read_csv` restricted to the five used
columns.  `price = none` models a price cell that `pd.to_numeric(errors :=
coerce)` maps to `NaN` (missing or unparseable); likewise `bedrooms`.
`body = none` models a description cell read as `NaN`: pandas' default
`na_values` turn an empty or missing CSV field into `NaN`, so an empty
description reaches the cleaning step as `NaN`, not as `""`. -/
structure RawRow where
  price : Option ℚ
  bedrooms : Option ℤ
  bathrooms : Option ℚ
  cityname : String
  body : Option String
deriving DecidableEq

/-- The fixed placeholder `load_source` substitutes for a missing
description: `self.data["Description"].fillna("No description available")`. -/
def placeholder : String := "No description available"

/-- The cleaning pipeline of `load_source` applied to one raw row:
`fillna(placeholder)` on the description, `to_numeric(errors := coerce)`
on the price, `to_numeric(...).fillna(0).astype(int)` on the bedrooms, and
`dropna(subset := ["Price"])`, which drops the row (`none`) exactly when
the price is `NaN`. -/
def cleanRow (r : RawRow) : Option Row :=
  match r.price with
  | none => none
  | some p =>
      some { Price := p
             Bedrooms := r.bedrooms.getD 0
             Bathrooms := r.bathrooms
             City := r.cityname
             Description := r.body.getD placeholder }

/-- The row-set transformation of `load_source`: `.head(1000)` on the raw
frame, then the per-row cleaning, keeping only rows with a numeric price. -/
def cleanRows (rows : List RawRow) : List Row :=
  (rows.take 1000).filterMap cleanRow

/-- Python-level errors that `run_search` can raise.  `keyError` models the
`KeyError` of `prefs["max_price"]` / `prefs["min_bedrooms"]` when the key
is absent from the preferences dictionary. -/
inductive PyError where
  | keyError
deriving DecidableEq

/-- The `prefs` dictionary passed to `run_search`: `query` is present in
every caller; `max_price = none` / `min_bedrooms = none` model the
corresponding key being absent from the dictionary. -/
structure Prefs where
  query : String
  max_price : Option ℚ
  min_bedrooms : Option ℤ

/-- The engine state of `PropertyMatchEngine`: the embedding model (an
opaque external collaborator `String → List ℝ`), the two configured
weights `config["WEIGHTS"]["hard"]` and `config["WEIGHTS"]["semantic"]`,
and the mutable fields set by `__init__` (`self.data = pd.DataFrame()`,
`self.corpus_embeddings = None`) and overwritten by `load_source`. -/
structure Engine where
  embed : String → List ℝ
  w_hard : ℝ
  w_semantic : ℝ
  data : List Row
  corpus_embeddings : Option (List (List ℝ))

/-- `load_source`.  The argument `source` is the outcome of
`pd.read_csv`: `none` when reading raises (missing or malformed file), in
which case the `try/except` catches the exception, logs it and returns
the engine unchanged; otherwise the list of raw rows.  On success the
cleaned rows are stored in `self.data` and one embedding per cleaned
description is computed and stored in `self.corpus_embeddings`
(`model.encode` of the description list, one vector per row, in order). -/
def load_source (e : Engine) (source : Option (List RawRow)) : Engine :=
  match source with
  | none => e
  | some rows =>
      let cleaned := cleanRows rows
      { e with
          data := cleaned
          corpus_embeddings := some (cleaned.map fun r => e.embed r.Description) }

/-- `_calculate_hard_scores` on one row, with both preference keys
present: `((Price <= max_price) + (Bedrooms >= min_bedrooms)) / 2`,
each comparison cast to `0.0` or `1.0`. -/
def hardScoreRow (r : Row) (mp : ℚ) (mb : ℤ) : ℚ :=
  ((if r.Price ≤ mp then (1 : ℚ) else 0) + (if mb ≤ r.Bedrooms then (1 : ℚ) else 0)) / 2

/-- `_calculate_hard_scores`: reads `prefs["max_price"]` and
`prefs["min_bedrooms"]` (raising `KeyError` when a key is absent) and
returns the vectorized per-row score `(price_match + bed_match) / 2`. -/
def _calculate_hard_scores (data : List Row) (prefs : Prefs) : Except PyError (List ℚ) :=
  match prefs.max_price, prefs.min_bedrooms with
  | some mp, some mb => .ok (data.map fun r => hardScoreRow r mp mb)
  | _, _ => .error .keyError

/-- Dot product of two embedding vectors (`torch` dot on equal-length
tensors; `zipWith` agrees with it on the equal-length vectors a model
produces). -/
def dot (a b : List ℝ) : ℝ := (List.zipWith (· * ·) a b).sum

/-- Squared Euclidean norm of an embedding vector. -/
def normSq (a : List ℝ) : ℝ := dot a a

/-- `sentence_transformers.util.cos_sim` on a pair of vectors: the dot
product of the two L2-normalized vectors.  `torch.nn.functional.normalize`
clamps the denominator away from zero, so a zero vector normalizes to the
zero vector and its similarity with anything is `0`; in exact arithmetic
that is the zero test below. -/
noncomputable def cos_sim (a b : List ℝ) : ℝ :=
  if normSq a = 0 ∨ normSq b = 0 then 0
  else dot a b / (Real.sqrt (normSq a) * Real.sqrt (normSq b))

/-- One row of the result frame of `run_search`: the original data row
plus the `Semantic_Score`, `Hard_Score` and `Final_Score` columns. -/
structure SRow where
  row : Row
  Semantic_Score : ℝ
  Hard_Score : ℚ
  Final_Score : ℝ

/-- The comparison `sort_values` sorts by in ascending direction:
`Final_Score` of one result row at most that of the other. -/
def byScore (a b : SRow) : Prop := a.Final_Score ≤ b.Final_Score

noncomputable instance : DecidableRel byScore :=
  fun a b => Real.decidableLE a.Final_Score b.Final_Score

instance : IsTotal SRow byScore := ⟨fun a b => le_total a.Final_Score b.Final_Score⟩

instance : IsTrans SRow byScore := ⟨fun _ _ _ hab hbc => le_trans hab hbc⟩

/-- `results_df.sort_values(by := "Final_Score", ascending := False)` with
pandas' default `kind = "quicksort"`: for a descending sort
`pandas.core.sorting.nargsort` first reverses the values and their
indices, argsorts the reversed values in ascending direction, and then
reverses the resulting indexer.  The double reversal makes the descending
sort preserve the original order of tied keys whenever the underlying
argsort is stable (pandas GH 6399); numpy's quicksort runs a stable
insertion sort on arrays up to its 16-element small-sort cutoff, so for
such frames this model — reverse, stable ascending sort, reverse — is
exact; on larger frames the argsort may permute equal keys differently
(still deterministically). -/
noncomputable def sort_values_desc (l : List SRow) : List SRow :=
  (List.insertionSort byScore l.reverse).reverse

/-- Zip of the three per-row columns (data row, semantic score, hard
score) into result rows. -/
def zip3 : List Row → List ℝ → List ℚ → List (Row × ℝ × ℚ)
  | r :: rs, s :: ss, h :: hs => (r, s, h) :: zip3 rs ss hs
  | _, _, _ => []

/-- `run_search`.  If `self.data.empty or self.corpus_embeddings is None`
it logs an error and returns an empty `DataFrame` (modelled `.ok []`).
Otherwise it encodes the query once, computes the cosine similarity of the
query vector with every corpus vector, computes the hard scores (which
raises `KeyError` when a preference key is absent), combines them with the
configured weights into `Final_Score = w_hard * Hard_Score + w_semantic *
Semantic_Score`, and returns the frame sorted by `Final_Score`
descending. -/
noncomputable def run_search (e : Engine) (prefs : Prefs) : Except PyError (List SRow) :=
  match e.data, e.corpus_embeddings with
  | [], _ => .ok []
  | _ :: _, none => .ok []
  | r :: rs, some embs =>
      let query_emb := e.embed prefs.query
      let semantic_scores := embs.map fun v => cos_sim query_emb v
      match _calculate_hard_scores (r :: rs) prefs with
      | .error err => .error err
      | .ok hard_scores =>
          let results := (zip3 (r :: rs) semantic_scores hard_scores).map fun t =>
            { row := t.1
              Semantic_Score := t.2.1
              Hard_Score := t.2.2
              Final_Score := e.w_hard * (t.2.2 : ℝ) + e.w_semantic * t.2.1 : SRow }
          .ok (sort_values_desc results)

/-- The errors the HTTP boundary (`main.py`) surfaces: the explicit
`HTTPException(500, "Data source not loaded.")` guard, or a Python error
propagating out of the engine. -/
inductive ApiError where
  | notLoaded
  | py (e : PyError)
deriving DecidableEq

/-- A `/search` request body after pydantic validation; the defaults
(`max_price = 3000`, `min_bedrooms = 2`, `threshold = 0.70`) have already
been substituted for omitted fields, so the engine always receives both
preference keys. -/
structure SearchRequest where
  query : String
  max_price : ℚ
  min_bedrooms : ℤ
  threshold : ℝ

/-- `perform_search` in `main.py`: reject when `engine.data.empty`, run
the engine, and apply the boundary policy — keep rows with
`Final_Score >= threshold` and take the first 10. -/
noncomputable def perform_search (e : Engine) (req : SearchRequest) :
    Except ApiError (List SRow) :=
  if e.data = [] then .error .notLoaded
  else
    match run_search e { query := req.query, max_price := some req.max_price,
                         min_bedrooms := some req.min_bedrooms } with
    | .error pe => .error (.py pe)
    | .ok results =>
        .ok ((results.filter fun s =>
          decide (req.threshold ≤ s.Final_Score)).take 10)

end MatchEngine

namespace MatchEngine

theorem dot_nil_right (a : List ℝ) : dot a [] = 0 := by cases a <;> rfl

theorem dot_cons (x y : ℝ) (a b : List ℝ) :
    dot (x :: a) (y :: b) = x * y + dot a b := rfl

theorem normSq_cons (x : ℝ) (a : List ℝ) :
    normSq (x :: a) = x * x + normSq a := rfl

theorem normSq_nonneg (a : List ℝ) : 0 ≤ normSq a := by
  induction a with
  | nil => exact le_refl 0
  | cons x xs ih =>
      rw [normSq_cons]
      have hx : 0 ≤ x * x := mul_self_nonneg x
      linarith

theorem sqrt_step (x y A B : ℝ) (hA : 0 ≤ A) (hB : 0 ≤ B) :
    |x| * |y| + Real.sqrt A * Real.sqrt B ≤
      Real.sqrt (x * x + A) * Real.sqrt (y * y + B) := by
  have hxA : (0 : ℝ) ≤ x * x + A := by nlinarith [mul_self_nonneg x]
  rw [← Real.sqrt_mul hxA (y * y + B)]
  rw [Real.le_sqrt (by positivity) (by nlinarith [mul_self_nonneg x, mul_self_nonneg y])]
  nlinarith [Real.sq_sqrt hA, Real.sq_sqrt hB, Real.sqrt_nonneg A, Real.sqrt_nonneg B,
    sq_nonneg (|x| * Real.sqrt B - |y| * Real.sqrt A), abs_nonneg x, abs_nonneg y,
    sq_abs x, sq_abs y, mul_nonneg (abs_nonneg x) (abs_nonneg y),
    mul_nonneg (Real.sqrt_nonneg A) (Real.sqrt_nonneg B)]

theorem abs_dot_le (a : List ℝ) : ∀ b : List ℝ,
    |dot a b| ≤ Real.sqrt (normSq a) * Real.sqrt (normSq b) := by
  induction a with
  | nil =>
      intro b
      have : dot [] b = 0 := rfl
      rw [this, abs_zero]
      positivity
  | cons x xs ih =>
      intro b
      cases b with
      | nil =>
          rw [dot_nil_right, abs_zero]
          positivity
      | cons y ys =>
          have h1 : |dot (x :: xs) (y :: ys)| ≤ |x * y| + |dot xs ys| := by
            rw [dot_cons]; exact abs_add _ _
          have h2 : |x * y| + |dot xs ys| ≤
              |x| * |y| + Real.sqrt (normSq xs) * Real.sqrt (normSq ys) := by
            rw [abs_mul]
            exact add_le_add (le_refl _) (ih ys)
          have h3 := sqrt_step x y (normSq xs) (normSq ys) (normSq_nonneg xs) (normSq_nonneg ys)
          rw [normSq_cons, normSq_cons]
          linarith

end MatchEngine

namespace MatchEngine

theorem cos_sim_zero_left (a b : List ℝ) (h : normSq a = 0) : cos_sim a b = 0 := by
  unfold cos_sim
  rw [if_pos (Or.inl h)]

theorem cos_sim_zero_right (a b : List ℝ) (h : normSq b = 0) : cos_sim a b = 0 := by
  unfold cos_sim
  rw [if_pos (Or.inr h)]

theorem cos_sim_bounds (a b : List ℝ) : -1 ≤ cos_sim a b ∧ cos_sim a b ≤ 1 := by
  unfold cos_sim
  by_cases h : normSq a = 0 ∨ normSq b = 0
  · rw [if_pos h]
    norm_num
  · rw [if_neg h]
    push_neg at h
    have hA : 0 < normSq a := lt_of_le_of_ne (normSq_nonneg a) (Ne.symm h.1)
    have hB : 0 < normSq b := lt_of_le_of_ne (normSq_nonneg b) (Ne.symm h.2)
    have hsA : 0 < Real.sqrt (normSq a) := Real.sqrt_pos.2 hA
    have hsB : 0 < Real.sqrt (normSq b) := Real.sqrt_pos.2 hB
    have hden : 0 < Real.sqrt (normSq a) * Real.sqrt (normSq b) := mul_pos hsA hsB
    have habs : |dot a b / (Real.sqrt (normSq a) * Real.sqrt (normSq b))| ≤ 1 := by
      rw [abs_div, abs_of_pos hden, div_le_one hden]
      exact abs_dot_le a b
    exact abs_le.1 habs

theorem cos_sim_self (a : List ℝ) (h : normSq a ≠ 0) : cos_sim a a = 1 := by
  unfold cos_sim
  rw [if_neg (by simp [h])]
  rw [Real.mul_self_sqrt (normSq_nonneg a)]
  exact div_self h

end MatchEngine

namespace MatchEngine

/-- Sample row with price 2000 and 2 bedrooms, city "A". -/
def rowA : Row :=
  { Price := 2000, Bedrooms := 2, Bathrooms := none, City := "A", Description := "sunny" }

/-- Sample row identical to `rowA` except for the city, so that it gets
the same scores but is distinguishable in the output. -/
def rowB : Row :=
  { Price := 2000, Bedrooms := 2, Bathrooms := none, City := "B", Description := "sunny" }

/-- A concrete engine instance over `rowA` and `rowB`, with the
configured weights 0.5 / 0.5 and an embedding model that sends every
text to the unit vector `[1]` (so both corpus embeddings equal the model
output on the rows' descriptions). -/
noncomputable def engineAB : Engine :=
  { embed := fun _ => [1]
    w_hard := 1 / 2
    w_semantic := 1 / 2
    data := [rowA, rowB]
    corpus_embeddings := some [[1], [1]] }

/-- Preferences whose dictionary lacks the `max_price` key. -/
def prefsNoMax : Prefs := { query := "q", max_price := none, min_bedrooms := some 2 }

/-- Complete sample preferences. -/
def prefsFull : Prefs := { query := "q", max_price := some 2500, min_bedrooms := some 2 }

/-- C2: with both `max_price` and `min_bedrooms` present,
`_calculate_hard_scores` returns, for every record, the score
`(priceOk + bedroomsOk) / 2` where each sub-criterion contributes `1`
when satisfied and `0` otherwise (2 being the number of sub-criteria),
and every such score lies in the set {0, 0.5, 1}. -/
theorem hard_score_formula_and_range (data : List Row) (p : Prefs) (mp : ℚ) (mb : ℤ)
    (hmp : p.max_price = some mp) (hmb : p.min_bedrooms = some mb) :
    _calculate_hard_scores data p =
      .ok (data.map fun r =>
        ((if r.Price ≤ mp then (1 : ℚ) else 0) + (if mb ≤ r.Bedrooms then (1 : ℚ) else 0)) / 2)
    ∧ ∀ r ∈ data,
        hardScoreRow r mp mb = 0 ∨ hardScoreRow r mp mb = 1 / 2 ∨ hardScoreRow r mp mb = 1 := by
  constructor
  · unfold _calculate_hard_scores
    rw [hmp, hmb]
    rfl
  · intro r _
    unfold hardScoreRow
    by_cases h1 : r.Price ≤ mp <;> by_cases h2 : mb ≤ r.Bedrooms <;>
      simp [h1, h2]

/-- Witness for C2 at a concrete record and concrete preferences. -/
theorem hard_score_formula_and_range_witness :
    _calculate_hard_scores [rowA] prefsFull =
      .ok ([rowA].map fun r =>
        ((if r.Price ≤ 2500 then (1 : ℚ) else 0) + (if 2 ≤ r.Bedrooms then (1 : ℚ) else 0)) / 2)
    ∧ ∀ r ∈ [rowA],
        hardScoreRow r 2500 2 = 0 ∨ hardScoreRow r 2500 2 = 1 / 2 ∨ hardScoreRow r 2500 2 = 1 :=
  hard_score_formula_and_range [rowA] prefsFull 2500 2 rfl rfl

/-- C6: for every query vector and record vector the semantic score lies
in [-1, 1]; identical vectors of nonzero magnitude yield score 1; and a
zero-magnitude vector on either side yields score 0 rather than the
result of a division by zero. -/
theorem semantic_score_range_identity_zero (a b : List ℝ) :
    (-1 ≤ cos_sim a b ∧ cos_sim a b ≤ 1)
    ∧ (normSq a ≠ 0 → cos_sim a a = 1)
    ∧ (normSq a = 0 → cos_sim a b = 0)
    ∧ (normSq b = 0 → cos_sim a b = 0) :=
  ⟨cos_sim_bounds a b, fun h => cos_sim_self a h,
   fun h => cos_sim_zero_left a b h, fun h => cos_sim_zero_right a b h⟩

/-- Witness for C6: the similarity of the unit vector with itself is 1,
and the similarity of the zero vector with anything is 0. -/
theorem semantic_score_range_identity_zero_witness :
    cos_sim [(1 : ℝ), 0] [(1 : ℝ), 0] = 1 ∧ cos_sim [(0 : ℝ)] [(1 : ℝ)] = 0 :=
  ⟨(semantic_score_range_identity_zero [(1 : ℝ), 0] [(1 : ℝ), 0]).2.1
      (by norm_num [normSq, dot]),
   (semantic_score_range_identity_zero [(0 : ℝ)] [(1 : ℝ)]).2.2.1
      (by norm_num [normSq, dot])⟩

end MatchEngine

namespace MatchEngine

/-- The engine as `__init__` leaves it: empty frame, no embeddings. -/
noncomputable def engine0 : Engine :=
  { embed := fun _ => [1]
    w_hard := 1 / 2
    w_semantic := 1 / 2
    data := []
    corpus_embeddings := none }

/-- An engine with one record but no precomputed embeddings. -/
noncomputable def engineNoEmb : Engine :=
  { embed := fun _ => [1]
    w_hard := 1 / 2
    w_semantic := 1 / 2
    data := [rowA]
    corpus_embeddings := none }

/-- C1 (amended): against an empty corpus (no records, or no precomputed
embeddings) `run_search` logs an error and returns an empty `DataFrame` —
an empty successful result — rather than raising; no
`EngineNotReadyError` exists in the code, and the HTTP boundary guards
`engine.data.empty` separately. -/
theorem empty_corpus_returns_empty_frame (e : Engine) (p : Prefs)
    (h : e.data = [] ∨ e.corpus_embeddings = none) :
    run_search e p = .ok [] := by
  cases hd : e.data with
  | nil => simp [run_search, hd]
  | cons r rs =>
      cases he : e.corpus_embeddings with
      | none => simp [run_search, hd, he]
      | some embs =>
          rcases h with h | h
          · rw [hd] at h; cases h
          · rw [he] at h; cases h

/-- Witness for the amended C1 at a concrete engine with a record but no
embeddings. -/
theorem empty_corpus_returns_empty_frame_witness :
    run_search engineNoEmb prefsFull = .ok [] :=
  empty_corpus_returns_empty_frame engineNoEmb prefsFull (Or.inr rfl)

/-- C1 counterexample: on the freshly initialized engine (empty corpus)
`run_search` returns the empty successful result `.ok []` — it does not
fail — contradicting the claim that it always fails with
`EngineNotReadyError` and never returns an empty success. -/
theorem empty_corpus_claim_counterexample :
    run_search engine0 prefsFull = .ok [] := rfl

/-- C4 (amended): if the preferences dictionary omits `max_price` or
`min_bedrooms`, `_calculate_hard_scores` raises `KeyError`
(`prefs["max_price"]` / `prefs["min_bedrooms"]`); the absent criterion is
not treated as automatically satisfied.  The callers never exercise this:
the HTTP boundary substitutes defaults 3000 / 2 and the CLI substitutes
2500 / 2. -/
theorem missing_pref_key_raises_keyerror (data : List Row) (p : Prefs)
    (h : p.max_price = none ∨ p.min_bedrooms = none) :
    _calculate_hard_scores data p = .error .keyError := by
  unfold _calculate_hard_scores
  cases hm : p.max_price with
  | none => cases hb : p.min_bedrooms <;> rfl
  | some mp =>
      cases hb : p.min_bedrooms with
      | none => rfl
      | some mb => rcases h with h | h <;> simp_all

/-- Witness for the amended C4 at a concrete record list and concrete
preferences lacking `max_price`. -/
theorem missing_pref_key_raises_keyerror_witness :
    _calculate_hard_scores [rowA] prefsNoMax = .error .keyError :=
  missing_pref_key_raises_keyerror [rowA] prefsNoMax (Or.inl rfl)

/-- C4 counterexample: on a loaded two-record engine and preferences
whose dictionary lacks the `max_price` key, `run_search` propagates the
`KeyError` instead of scoring the price criterion as satisfied —
contradicting the claim that scoring does not fail. -/
theorem missing_pref_key_claim_counterexample :
    run_search engineAB prefsNoMax = .error .keyError := rfl

end MatchEngine

namespace MatchEngine

/-- A raw row whose price cell is unparseable (dropped by the cleaning). -/
def rawNoPrice : RawRow :=
  { price := none, bedrooms := none, bathrooms := none, cityname := "X", body := some "d" }

/-- A raw row with a valid price and a missing description cell. -/
def rawNoDesc : RawRow :=
  { price := some 100, bedrooms := some 1, bathrooms := none, cityname := "X", body := none }

/-- A fully populated raw row. -/
def rawFull : RawRow :=
  { price := some 100, bedrooms := some 1, bathrooms := none, cityname := "X", body := some "d" }

/-- C7: a raw row whose description cell pandas read as `NaN` (the fate
of an empty or missing CSV description under the default `na_values`)
gets the fixed placeholder text during cleaning, and — since a non-`NaN`
cell is a nonempty string — no cleaned description handed to the
embedding model is the empty string. -/
theorem missing_description_gets_placeholder (rows : List RawRow)
    (hcsv : ∀ r ∈ rows, r.body ≠ some "") :
    (∀ r ∈ rows, r.body = none →
        ∀ row : Row, cleanRow r = some row → row.Description = "No description available")
    ∧ ∀ row ∈ cleanRows rows, row.Description ≠ "" := by
  constructor
  · intro r _ hbody row hrow
    unfold cleanRow at hrow
    cases hp : r.price with
    | none => rw [hp] at hrow; cases hrow
    | some p =>
        rw [hp] at hrow
        simp only [Option.some.injEq] at hrow
        rw [← hrow]
        simp [hbody, placeholder]
  · intro row hrow
    unfold cleanRows at hrow
    rcases List.mem_filterMap.1 hrow with ⟨r, hrmem, hr⟩
    have hrrows : r ∈ rows := List.take_subset 1000 rows hrmem
    unfold cleanRow at hr
    cases hp : r.price with
    | none => rw [hp] at hr; cases hr
    | some p =>
        rw [hp] at hr
        simp only [Option.some.injEq] at hr
        rw [← hr]
        cases hb : r.body with
        | none => simp [placeholder]
        | some s =>
            simp only [Option.getD_some]
            intro hs
            exact hcsv r hrrows (by rw [hb, hs])

/-- Witness for C7 at a one-row source whose description cell is `NaN`. -/
theorem missing_description_gets_placeholder_witness :
    (∀ r ∈ [rawNoDesc], r.body = none →
        ∀ row : Row, cleanRow r = some row → row.Description = "No description available")
    ∧ ∀ row ∈ cleanRows [rawNoDesc], row.Description ≠ "" :=
  missing_description_gets_placeholder [rawNoDesc] (by intro r hr; simp at hr; subst hr; simp [rawNoDesc])

end MatchEngine

namespace MatchEngine

/-- C8 (amended): `load_source` raises nothing: an unreadable source is
caught inside the function, logged, and the engine is returned unchanged
(still an explicitly empty corpus when the engine is fresh); a readable
source with zero valid rows after filtering yields a normal return with
an empty frame and an empty — but not `None` — embedding tensor, with no
`EmptyCorpusError`; a subsequent search against the empty corpus returns
an empty frame (plus a log line) rather than a distinguishable error. -/
theorem failed_ingestion_leaves_empty_corpus (e : Engine) (p : Prefs) (rows : List RawRow)
    (hd : e.data = []) (hrows : cleanRows rows = []) :
    load_source e none = e
    ∧ (load_source e (some rows)).data = []
    ∧ (load_source e (some rows)).corpus_embeddings = some []
    ∧ run_search (load_source e none) p = .ok [] := by
  refine ⟨rfl, ?_, ?_, ?_⟩
  · simp [load_source, hrows]
  · simp [load_source, hrows]
  · show run_search e p = .ok []
    simp [run_search, hd]

/-- Witness for the amended C8 on a fresh engine and a one-row source
whose only row is dropped by the price filter. -/
theorem failed_ingestion_leaves_empty_corpus_witness :
    load_source engine0 none = engine0
    ∧ (load_source engine0 (some [rawNoPrice])).data = []
    ∧ (load_source engine0 (some [rawNoPrice])).corpus_embeddings = some []
    ∧ run_search (load_source engine0 none) prefsFull = .ok [] :=
  failed_ingestion_leaves_empty_corpus engine0 prefsFull [rawNoPrice] rfl rfl

/-- C8 counterexample: `load_source` on an unreadable source returns the
engine unchanged instead of failing with any `DataSourceError`, and on a
source with zero valid records it returns normally with an empty corpus
and an empty embedding tensor instead of failing with any
`EmptyCorpusError` — no `IngestionError` is ever surfaced to the caller. -/
theorem ingestion_error_claim_counterexample :
    load_source engine0 none = engine0
    ∧ load_source engine0 (some [rawNoPrice]) =
        { engine0 with data := [], corpus_embeddings := some [] } := by
  exact ⟨rfl, rfl⟩

/-- C9: after a successful build the number of precomputed embedding
vectors equals the number of records, and embedding `i` is exactly the
model's encoding of record `i`'s description (insertion order); the
engine state is read-only afterwards, so searches preserve this. -/
theorem corpus_embedding_correspondence (e : Engine) (rows : List RawRow)
    (embs : List (List ℝ))
    (h : (load_source e (some rows)).corpus_embeddings = some embs) :
    embs.length = (load_source e (some rows)).data.length
    ∧ ∀ i : ℕ, ∀ hie : i < embs.length, ∀ hid : i < (load_source e (some rows)).data.length,
        embs.get ⟨i, hie⟩ =
          e.embed ((load_source e (some rows)).data.get ⟨i, hid⟩).Description := by
  have hdata : (load_source e (some rows)).data = cleanRows rows := rfl
  have hembs : embs = (cleanRows rows).map fun r => e.embed r.Description := by
    have h2 : (load_source e (some rows)).corpus_embeddings =
        some ((cleanRows rows).map fun r => e.embed r.Description) := rfl
    rw [h] at h2
    exact Option.some.inj h2
  constructor
  · rw [hembs, hdata, List.length_map]
  · intro i hie hid
    subst hembs
    show (List.map (fun r => e.embed r.Description) (cleanRows rows)).get ⟨i, hie⟩ =
      e.embed ((cleanRows rows).get ⟨i, hid⟩).Description
    simp [List.get_eq_getElem]

/-- Witness for C9 at a concrete one-row source. -/
theorem corpus_embedding_correspondence_witness :
    ([[(1 : ℝ)]] : List (List ℝ)).length = (load_source engineAB (some [rawFull])).data.length
    ∧ ∀ i : ℕ, ∀ hie : i < ([[(1 : ℝ)]] : List (List ℝ)).length,
        ∀ hid : i < (load_source engineAB (some [rawFull])).data.length,
        ([[(1 : ℝ)]] : List (List ℝ)).get ⟨i, hie⟩ =
          engineAB.embed ((load_source engineAB (some [rawFull])).data.get ⟨i, hid⟩).Description :=
  corpus_embedding_correspondence engineAB [rawFull] [[(1 : ℝ)]] rfl

/-- C10: `load_source` keeps only the first 1000 raw rows (`.head(1000)`)
before the price filter: a source with more than 1000 rows builds the
same corpus as its 1000-row prefix, and the corpus never exceeds 1000
records — later rows are silently excluded. -/
theorem ingestion_truncates_to_first_1000 (e : Engine) (rows : List RawRow)
    (_hgt : 1000 < rows.length) :
    load_source e (some rows) = load_source e (some (rows.take 1000))
    ∧ (load_source e (some rows)).data.length ≤ 1000 := by
  have htake : cleanRows (rows.take 1000) = cleanRows rows := by
    unfold cleanRows
    rw [List.take_take]
    simp
  constructor
  · show ({ e with
              data := cleanRows rows
              corpus_embeddings :=
                some ((cleanRows rows).map fun r => e.embed r.Description) } : Engine) =
        { e with
            data := cleanRows (rows.take 1000)
            corpus_embeddings :=
              some ((cleanRows (rows.take 1000)).map fun r => e.embed r.Description) }
    rw [htake]
  · have hdata : (load_source e (some rows)).data = cleanRows rows := rfl
    rw [hdata]
    calc (cleanRows rows).length
        ≤ (rows.take 1000).length := List.length_filterMap_le _ _
      _ ≤ 1000 := List.length_take_le _ _

/-- Witness for C10 at a source of 1001 copies of one raw row. -/
theorem ingestion_truncates_to_first_1000_witness :
    load_source engineAB (some (List.replicate 1001 rawFull)) =
      load_source engineAB (some ((List.replicate 1001 rawFull).take 1000))
    ∧ (load_source engineAB (some (List.replicate 1001 rawFull))).data.length ≤ 1000 :=
  ingestion_truncates_to_first_1000 engineAB (List.replicate 1001 rawFull) (by rw [List.length_replicate]; norm_num)

end MatchEngine

namespace MatchEngine

theorem sort_values_desc_perm (l : List SRow) : (sort_values_desc l).Perm l := by
  unfold sort_values_desc
  exact (List.reverse_perm _).trans
    ((List.perm_insertionSort byScore l.reverse).trans (List.reverse_perm l))

theorem zip3_map_fst : ∀ (l1 : List Row) (l2 : List ℝ) (l3 : List ℚ),
    l2.length = l1.length → l3.length = l1.length →
    (zip3 l1 l2 l3).map (fun t => t.1) = l1 := by
  intro l1
  induction l1 with
  | nil =>
      intro l2 l3 _ _
      cases l2 <;> cases l3 <;> rfl
  | cons r rs ih =>
      intro l2 l3 h2 h3
      cases l2 with
      | nil => cases h2
      | cons s ss =>
          cases l3 with
          | nil => cases h3
          | cons q qs =>
              have h2s : ss.length = rs.length := by simpa using h2
              have h3s : qs.length = rs.length := by simpa using h3
              show r :: (zip3 rs ss qs).map (fun t => t.1) = r :: rs
              rw [ih ss qs h2s h3s]

theorem hard_scores_of_ok (data : List Row) (p : Prefs) (l : List ℚ)
    (h : _calculate_hard_scores data p = .ok l) :
    ∃ mp mb, p.max_price = some mp ∧ p.min_bedrooms = some mb
      ∧ l = data.map fun r => hardScoreRow r mp mb := by
  unfold _calculate_hard_scores at h
  cases hm : p.max_price with
  | none => rw [hm] at h; cases p.min_bedrooms <;> cases h
  | some mp =>
      cases hb : p.min_bedrooms with
      | none => rw [hm, hb] at h; cases h
      | some mb =>
          rw [hm, hb] at h
          exact ⟨mp, mb, rfl, rfl, (Except.ok.inj h).symm⟩

/-- The combined result frame of `run_search` before sorting, as a
function of the corpus, the semantic scores and the hard scores. -/
noncomputable def combineResults (e : Engine) (p : Prefs) (embs : List (List ℝ))
    (hard : List ℚ) : List SRow :=
  (zip3 e.data (embs.map fun v => cos_sim (e.embed p.query) v) hard).map fun t =>
    { row := t.1
      Semantic_Score := t.2.1
      Hard_Score := t.2.2
      Final_Score := e.w_hard * (t.2.2 : ℝ) + e.w_semantic * t.2.1 }

theorem run_search_ok_characterization (e : Engine) (p : Prefs) (res : List SRow)
    (h : run_search e p = .ok res) :
    (res = [] ∧ (e.data = [] ∨ e.corpus_embeddings = none))
    ∨ ∃ embs hard, e.corpus_embeddings = some embs
        ∧ _calculate_hard_scores e.data p = .ok hard
        ∧ res = sort_values_desc (combineResults e p embs hard) := by
  unfold run_search at h
  split at h
  next hd =>
      exact Or.inl ⟨(Except.ok.inj h).symm, Or.inl hd⟩
  next hd he =>
      exact Or.inl ⟨(Except.ok.inj h).symm, Or.inr he⟩
  next r rs embs hd he =>
      dsimp only at h
      split at h
      next err hh => cases h
      next hard hh =>
          refine Or.inr ⟨embs, hard, he, ?_, ?_⟩
          · rw [hd]; exact hh
          · have hres := (Except.ok.inj h).symm
            rw [hres]
            unfold combineResults
            rw [hd]

end MatchEngine

namespace MatchEngine

theorem cos_sim_unit : cos_sim [(1 : ℝ)] [(1 : ℝ)] = 1 := by
  have h1 : normSq [(1 : ℝ)] = 1 := by norm_num [normSq, dot]
  unfold cos_sim
  rw [if_neg (by rw [h1]; norm_num)]
  rw [h1, Real.sqrt_one]
  norm_num [dot]

/-- The scored result row for `rowA` on `engineAB`: semantic score 1
(identical unit embeddings), hard score 1 (both criteria met), final
score 0.5 * 1 + 0.5 * 1 = 1. -/
def scoredA : SRow :=
  { row := rowA, Semantic_Score := 1, Hard_Score := 1, Final_Score := 1 }

/-- The scored result row for `rowB` on `engineAB`; same scores as
`scoredA`. -/
def scoredB : SRow :=
  { row := rowB, Semantic_Score := 1, Hard_Score := 1, Final_Score := 1 }

theorem run_search_engineAB :
    run_search engineAB prefsFull = .ok [scoredA, scoredB] := by
  have hA : hardScoreRow rowA 2500 2 = 1 := by norm_num [hardScoreRow, rowA]
  have hB : hardScoreRow rowB 2500 2 = 1 := by norm_num [hardScoreRow, rowB]
  norm_num [run_search, engineAB, prefsFull, _calculate_hard_scores, hA, hB,
    cos_sim_unit, zip3, sort_values_desc, byScore, scoredA, scoredB]

end MatchEngine

namespace MatchEngine

/-- The standard request at the boundary: defaults similar to the API
schema, threshold 0.70. -/
noncomputable def reqStd : SearchRequest :=
  { query := "q", max_price := 2500, min_bedrooms := 2, threshold := 7 / 10 }

theorem perform_search_reqStd :
    perform_search engineAB reqStd = .ok [scoredA, scoredB] := by
  unfold perform_search
  rw [if_neg (by simp [engineAB])]
  have hp :
      ({ query := reqStd.query
         max_price := some reqStd.max_price
         min_bedrooms := some reqStd.min_bedrooms } : Prefs) = prefsFull := rfl
  rw [hp, run_search_engineAB]
  norm_num [scoredA, scoredB, reqStd, List.filter]

/-- C5: on a nonempty corpus whose embedding count matches the record
count, a successful `run_search` returns the complete scored frame — one
row per corpus record, the underlying records a permutation of the
corpus, with no threshold filter and no top-N cut inside the engine; the
boundary route alone derives its response from that complete frame by
`Final_Score >= threshold` filtering and `.head(10)`. -/
theorem search_returns_complete_sequence (e : Engine) (p : Prefs) (embs : List (List ℝ))
    (res : List SRow) (req : SearchRequest) (out : List SRow)
    (hne : e.data ≠ []) (hemb : e.corpus_embeddings = some embs)
    (hlen : embs.length = e.data.length)
    (h : run_search e p = .ok res)
    (hq : p = { query := req.query, max_price := some req.max_price,
                min_bedrooms := some req.min_bedrooms })
    (hout : perform_search e req = .ok out) :
    res.length = e.data.length
    ∧ (res.map fun s => s.row).Perm e.data
    ∧ out = (res.filter fun s => decide (req.threshold ≤ s.Final_Score)).take 10 := by
  rcases run_search_ok_characterization e p res h with ⟨hres, hcase⟩ | ⟨embs2, hard, hemb2, hh, hres⟩
  · rcases hcase with hd | hn
    · exact absurd hd hne
    · rw [hemb] at hn; cases hn
  · have hembs2 : embs2 = embs := by
      rw [hemb] at hemb2
      exact Option.some.inj hemb2.symm
    rw [hembs2] at hres
    rcases hard_scores_of_ok e.data p hard hh with ⟨mp, mb, _, _, hhard⟩
    have hslen : (embs.map fun v => cos_sim (e.embed p.query) v).length = e.data.length := by
      rw [List.length_map, hlen]
    have hhlen : hard.length = e.data.length := by rw [hhard, List.length_map]
    have hperm : (res.map fun s => s.row).Perm e.data := by
      rw [hres]
      have h1 : ((sort_values_desc (combineResults e p embs hard)).map fun s => s.row).Perm
          ((combineResults e p embs hard).map fun s => s.row) :=
        (sort_values_desc_perm _).map _
      refine h1.trans ?_
      have h2 : ((combineResults e p embs hard).map fun s => s.row) =
          (zip3 e.data (embs.map fun v => cos_sim (e.embed p.query) v) hard).map
            fun t => t.1 := by
        unfold combineResults
        rw [List.map_map]
        rfl
      rw [h2, zip3_map_fst _ _ _ hslen hhlen]
    refine ⟨?_, hperm, ?_⟩
    · have hl := hperm.length_eq
      rw [List.length_map] at hl
      exact hl
    · unfold perform_search at hout
      rw [if_neg hne, ← hq] at hout
      split at hout
      next pe hc => rw [h] at hc; cases hc
      next results hc =>
          rw [h] at hc
          have hr : res = results := Except.ok.inj hc
          rw [← hr] at hout
          exact (Except.ok.inj hout).symm

/-- Witness for C5 on the concrete two-record engine and the standard
request. -/
theorem search_returns_complete_sequence_witness :
    ([scoredA, scoredB] : List SRow).length = engineAB.data.length
    ∧ (([scoredA, scoredB] : List SRow).map fun s => s.row).Perm engineAB.data
    ∧ [scoredA, scoredB] =
        (([scoredA, scoredB] : List SRow).filter fun s =>
          decide (reqStd.threshold ≤ s.Final_Score)).take 10 :=
  search_returns_complete_sequence engineAB prefsFull [[1], [1]] [scoredA, scoredB]
    reqStd [scoredA, scoredB] (by simp [engineAB]) rfl rfl run_search_engineAB rfl
    perform_search_reqStd

end MatchEngine
